import Mathlib

/-!
Verification of the scrape-normalize-dedup-reconcile pipeline of the
`webscrape` repository (sources: `Snowpark_Webscrape.py` and
`Streamlit_Webscrape.py`).  The two source files implement the same pipeline;
where they agree a single Lean definition embeds both, and where they differ
each variant is embedded under the source name it comes from.

Modelling conventions:
- Python strings are Lean `String`s; `str.lower()` / `str.strip()` are
  modelled character-wise (ASCII case folding, ASCII whitespace).
- Python `float` values carried by prices are modelled as exact rationals
  (`ℚ`); the decimal strings the scraper actually parses denote exact
  rationals, and `float("inf")`/`float("nan")`, which denote non-finite
  values outside the price domain, are modelled as an absent result.
- `None` / exceptional results are `Option` / `Except`.
- SQL timestamps are abstract ticks (`Nat`).
-/

/-! ### String helpers modelling Python `str` methods -/

/-- Python whitespace characters recognised by `str.strip()` (ASCII part). -/
def pyIsSpace (c : Char) : Bool :=
  c = ' ' || c = '\t' || c = '\n' || c = '\x0d' || c = '\x0b' || c = '\x0c'

/-- Strip characters satisfying `p` from both ends of a character list. -/
def stripWhile (p : Char → Bool) (l : List Char) : List Char :=
  ((l.dropWhile p).reverse.dropWhile p).reverse

/-- Python `s.strip()` (no argument): strip whitespace from both ends. -/
def pyTrim (s : String) : String :=
  ⟨stripWhile pyIsSpace s.data⟩

/-- Python `s.strip(chars)`: strip any of the characters of `chars` from
both ends. -/
def pyStrip (s : String) (chars : String) : String :=
  ⟨stripWhile (fun c => chars.data.contains c) s.data⟩

/-- Python `s.replace(c, '')`: remove every occurrence of the character. -/
def removeAll (s : String) (c : Char) : String :=
  ⟨s.data.filter (fun x => x ≠ c)⟩

/-- Python `s.lower()`, modelled as character-wise ASCII case folding. -/
def lowerString (s : String) : String :=
  ⟨s.data.map Char.toLower⟩

/-- `needle` occurs as a contiguous substring of `hay`
(Python `needle in hay`). -/
def hasSubList (hay needle : List Char) : Bool :=
  needle.isPrefixOf hay ||
    match hay with
    | [] => false
    | _ :: t => hasSubList t needle

/-- Python `needle in hay` on strings. -/
def hasSub (hay needle : String) : Bool :=
  hasSubList hay.data needle.data

/-! ### Python `float(string)` on finite decimal notation

Model of CPython `float()` restricted to finite decimal literals
(optional sign, integer/fractional digits, optional exponent), the forms the
scraper can meet.  `inf`/`nan` (non-finite) and digit-group underscores are
outside the exact-rational carrier and are modelled as an absent result. -/

/-- Decimal digits to a natural number (most significant first). -/
def digitsToNat (l : List Char) : Nat :=
  l.foldl (fun a c => a * 10 + (c.toNat - 48)) 0

/-- All characters are decimal digits and the list is nonempty. -/
def allDigits (l : List Char) : Bool :=
  !l.isEmpty && l.all Char.isDigit

/-- A scanned decimal literal: sign, integer-part digit value, fraction
digit value with its digit count, and exponent.  Kept in `Nat`/`Int` so
that scanning is kernel-computable; the rational value is taken at the
end. -/
structure DecLit where
  neg : Bool
  ip : Nat
  fp : Nat
  fpLen : Nat
  ex : Int
deriving DecidableEq, Repr

/-- Scan `D+ | D+.D* | .D+` into integer and fraction parts. -/
def scanMantissa (l : List Char) : Option (Nat × Nat × Nat) :=
  let ip := l.takeWhile (fun c => c ≠ '.')
  let rest := l.dropWhile (fun c => c ≠ '.')
  match rest with
  | [] => if allDigits ip then some (digitsToNat ip, 0, 0) else none
  | _ :: fp =>
    if fp.contains '.' then none
    else if (ip.isEmpty && fp.isEmpty) then none
    else if ip.all Char.isDigit && fp.all Char.isDigit then
      some (digitsToNat ip, digitsToNat fp, fp.length)
    else none

/-- Scan an optionally signed decimal exponent. -/
def parseExpPart (l : List Char) : Option Int :=
  match l with
  | '+' :: t => if allDigits t then some (digitsToNat t : Int) else none
  | '-' :: t => if allDigits t then some (-(digitsToNat t : Int)) else none
  | t => if allDigits t then some (digitsToNat t : Int) else none

/-- Scan an unsigned decimal literal with optional `e`/`E` exponent. -/
def scanUnsigned (neg : Bool) (l : List Char) : Option DecLit :=
  let mant := l.takeWhile (fun c => c ≠ 'e' && c ≠ 'E')
  let rest := l.dropWhile (fun c => c ≠ 'e' && c ≠ 'E')
  match rest with
  | [] =>
    (scanMantissa mant).map (fun m => ⟨neg, m.1, m.2.1, m.2.2, 0⟩)
  | _ :: ex =>
    match scanMantissa mant, parseExpPart ex with
    | some m, some e => some ⟨neg, m.1, m.2.1, m.2.2, e⟩
    | _, _ => none

/-- Scan a decimal literal: optional surrounding whitespace, optional sign,
mantissa with optional exponent. -/
def pyFloatScan (s : String) : Option DecLit :=
  match stripWhile pyIsSpace s.data with
  | '+' :: t => scanUnsigned false t
  | '-' :: t => scanUnsigned true t
  | t => scanUnsigned false t

/-- Integer power of ten as a rational. -/
def qPow10 (e : Int) : ℚ :=
  match e with
  | .ofNat n => (10 : ℚ) ^ n
  | .negSucc n => 1 / (10 : ℚ) ^ (n + 1)

/-- Exact rational value of a scanned decimal literal. -/
def decValue (d : DecLit) : ℚ :=
  (if d.neg then -1 else 1) *
    ((d.ip * 10 ^ d.fpLen + d.fp : ℚ) / (10 ^ d.fpLen : ℚ)) * qPow10 d.ex

/-- CPython `float(s)` on finite decimal literals. -/
def pyFloat (s : String) : Option ℚ :=
  (pyFloatScan s).map decValue

/-! ### `clean_price` (Streamlit) / `_clean_price` (Snowpark)

`float(price_str.replace('$', '').replace(',', '').strip())`, with the
surrounding `try/except` returning `None` on any parse failure. -/

/-- `clean_price`: strip every `$` and `,`, strip whitespace, parse as a
float; any failure yields `none` (the Python `except` branch). -/
def clean_price (price_str : String) : Option ℚ :=
  pyFloat (pyTrim (removeAll (removeAll price_str '$') ','))

/-! ### MD5 (model of `hashlib.md5(...).hexdigest()`)

Reference implementation of MD5 (RFC 1321) over byte lists, used by
`create_driver_id`.  All words are naturals reduced mod 2^32. -/

def M32 : Nat := 4294967296

/-- 32-bit left rotation (operand assumed `< 2^32`). -/
def rotl32 (x n : Nat) : Nat :=
  ((x <<< n) % M32) ||| (x >>> (32 - n))

/-- The 64 MD5 round constants `K[i] = floor(2^32 * |sin(i+1)|)`. -/
def md5K : List Nat :=
  [0xd76aa478, 0xe8c7b756, 0x242070db, 0xc1bdceee,
   0xf57c0faf, 0x4787c62a, 0xa8304613, 0xfd469501,
   0x698098d8, 0x8b44f7af, 0xffff5bb1, 0x895cd7be,
   0x6b901122, 0xfd987193, 0xa679438e, 0x49b40821,
   0xf61e2562, 0xc040b340, 0x265e5a51, 0xe9b6c7aa,
   0xd62f105d, 0x02441453, 0xd8a1e681, 0xe7d3fbc8,
   0x21e1cde6, 0xc33707d6, 0xf4d50d87, 0x455a14ed,
   0xa9e3e905, 0xfcefa3f8, 0x676f02d9, 0x8d2a4c8a,
   0xfffa3942, 0x8771f681, 0x6d9d6122, 0xfde5380c,
   0xa4beea44, 0x4bdecfa9, 0xf6bb4b60, 0xbebfbc70,
   0x289b7ec6, 0xeaa127fa, 0xd4ef3085, 0x04881d05,
   0xd9d4d039, 0xe6db99e5, 0x1fa27cf8, 0xc4ac5665,
   0xf4292244, 0x432aff97, 0xab9423a7, 0xfc93a039,
   0x655b59c3, 0x8f0ccc92, 0xffeff47d, 0x85845dd1,
   0x6fa87e4f, 0xfe2ce6e0, 0xa3014314, 0x4e0811a1,
   0xf7537e82, 0xbd3af235, 0x2ad7d2bb, 0xeb86d391]

/-- The 64 MD5 per-round left-rotation amounts. -/
def md5S : List Nat :=
  [7, 12, 17, 22, 7, 12, 17, 22, 7, 12, 17, 22, 7, 12, 17, 22,
   5, 9, 14, 20, 5, 9, 14, 20, 5, 9, 14, 20, 5, 9, 14, 20,
   4, 11, 16, 23, 4, 11, 16, 23, 4, 11, 16, 23, 4, 11, 16, 23,
   6, 10, 15, 21, 6, 10, 15, 21, 6, 10, 15, 21, 6, 10, 15, 21]

/-- Little-endian byte decomposition of a word into `n` bytes. -/
def toBytesLE : Nat → Nat → List Nat
  | 0, _ => []
  | n + 1, x => (x % 256) :: toBytesLE n (x / 256)

/-- One MD5 round over the current `(a, b, c, d)` state. -/
def md5RoundStep (w : Nat → Nat) (st : Nat × Nat × Nat × Nat) (i : Nat) :
    Nat × Nat × Nat × Nat :=
  let (a, b, c, d) := st
  let mask := M32 - 1
  let f :=
    if i < 16 then (b &&& c) ||| ((b ^^^ mask) &&& d)
    else if i < 32 then (d &&& b) ||| ((d ^^^ mask) &&& c)
    else if i < 48 then b ^^^ c ^^^ d
    else c ^^^ (b ||| (d ^^^ mask))
  let g :=
    if i < 16 then i
    else if i < 32 then (5 * i + 1) % 16
    else if i < 48 then (3 * i + 5) % 16
    else (7 * i) % 16
  let f2 := (f + a + md5K.getD i 0 + w g) % M32
  (d, (b + rotl32 f2 (md5S.getD i 0)) % M32, b, c)

/-- Process one 64-byte chunk, updating the running digest state. -/
def md5Chunk (chunk : List Nat) (st : Nat × Nat × Nat × Nat) :
    Nat × Nat × Nat × Nat :=
  let w : Nat → Nat := fun j =>
    chunk.getD (4 * j) 0 + 256 * chunk.getD (4 * j + 1) 0 +
      65536 * chunk.getD (4 * j + 2) 0 + 16777216 * chunk.getD (4 * j + 3) 0
  let (a0, b0, c0, d0) := st
  let (a, b, c, d) := (List.range 64).foldl (md5RoundStep w) (a0, b0, c0, d0)
  ((a0 + a) % M32, (b0 + b) % M32, (c0 + c) % M32, (d0 + d) % M32)

/-- MD5 padding: append `0x80`, zero bytes to 56 mod 64, then the 64-bit
little-endian bit length. -/
def md5Pad (msg : List Nat) : List Nat :=
  let len := msg.length
  let z := (119 - len % 64) % 64
  msg ++ [128] ++ List.replicate z 0 ++ toBytesLE 8 ((len * 8) % (2 ^ 64))

/-- Split into 64-byte chunks (fuel-driven; `fuel ≥ length` suffices). -/
def toChunks : Nat → List Nat → List (List Nat)
  | 0, _ => []
  | _ + 1, [] => []
  | fuel + 1, l => l.take 64 :: toChunks fuel (l.drop 64)

/-- Serialize a digest state as 16 little-endian bytes. -/
def md5Final (st : Nat × Nat × Nat × Nat) : List Nat :=
  toBytesLE 4 st.1 ++ toBytesLE 4 st.2.1 ++ toBytesLE 4 st.2.2.1 ++
    toBytesLE 4 st.2.2.2

/-- MD5 digest of a byte list, as the 16 digest bytes. -/
def md5Bytes (msg : List Nat) : List Nat :=
  let padded := md5Pad msg
  md5Final
    ((toChunks padded.length padded).foldl (fun st ch => md5Chunk ch st)
      (0x67452301, 0xefcdab89, 0x98badcfe, 0x10325476))

/-- Lowercase hexadecimal digit for a nibble. -/
def hexChar (n : Nat) : Char :=
  "0123456789abcdef".data.getD n '0'

/-- Two lowercase hex characters of a byte. -/
def byteHex (b : Nat) : List Char :=
  [hexChar (b / 16), hexChar (b % 16)]

/-- UTF-8 encoding of a unicode code point (Python `str.encode()`). -/
def utf8Char (c : Nat) : List Nat :=
  if c < 128 then [c]
  else if c < 2048 then [192 ||| (c >>> 6), 128 ||| (c &&& 63)]
  else if c < 65536 then
    [224 ||| (c >>> 12), 128 ||| ((c >>> 6) &&& 63), 128 ||| (c &&& 63)]
  else
    [240 ||| (c >>> 18), 128 ||| ((c >>> 12) &&& 63),
     128 ||| ((c >>> 6) &&& 63), 128 ||| (c &&& 63)]

/-- UTF-8 bytes of a string (Python `s.encode()`). -/
def strBytes (s : String) : List Nat :=
  s.data.flatMap (fun c => utf8Char c.toNat)

/-- `hashlib.md5(s.encode()).hexdigest()`. -/
def md5Hex (s : String) : String :=
  ⟨(md5Bytes (strBytes s)).flatMap byteHex⟩

/-! ### Records

`parse_product` builds a dict with keys Brand, Model, Price, Condition,
Dexterity, Loft, Flex, Shaft, URL; the pipeline then adds SOURCE_URL and
DRIVER_ID columns.  `prepare_for_snowflake` only renames columns
(Brand → BRAND, …, URL → PRODUCT_URL), so a single Lean structure with the
Python-side names stands for both shapes. -/

/-- One product record as produced by `parse_product`. -/
structure ProductInfo where
  Brand : String
  Model : String
  Price : Option ℚ
  Condition : String
  Dexterity : String
  Loft : String
  Flex : String
  Shaft : String
  URL : String
deriving DecidableEq, Repr

/-- `create_driver_id` (Streamlit) / `_create_driver_id` (Snowpark):
MD5 hex digest of the lower-cased underscore-joined seven identity fields.
Price and URL do not enter the joined string. -/
def create_driver_id (row : ProductInfo) : String :=
  let unique_string :=
    row.Brand ++ "_" ++ row.Model ++ "_" ++ row.Condition ++ "_" ++
      row.Dexterity ++ "_" ++ row.Loft ++ "_" ++ row.Flex ++ "_" ++ row.Shaft
  md5Hex (lowerString unique_string)

/-- A product row after the pipeline tags it with SOURCE_URL and DRIVER_ID
(the shape uploaded to the store; `prepare_for_snowflake` renames columns
only). -/
structure Row extends ProductInfo where
  SOURCE_URL : String
  DRIVER_ID : String
deriving DecidableEq, Repr

/-- `df['SOURCE_URL'] = url; df['DRIVER_ID'] = df.apply(create_driver_id)`:
tag one record. -/
def tagRow (sourceUrl : String) (p : ProductInfo) : Row :=
  { toProductInfo := p, SOURCE_URL := sourceUrl, DRIVER_ID := create_driver_id p }

/-- `prepare_for_snowflake`: a pure column rename, the identity on the
modelled record. -/
def prepare_for_snowflake (r : Row) : Row := r

/-! ### HTML element model for `parse_product`

A listing element is abstracted by what BeautifulSoup's `find`/`find_all`
calls return on it: the (already `get_text()`-extracted) text of each
labelled sub-element when present, the attribute `(label, next_sibling)`
pairs of the attributes block when present, and the `href` of the product
link when present.  A `next_sibling` is either a `NavigableString`
(a string, on which `.strip(' :,')` succeeds) or a `Tag`, on which
`.strip` raises `AttributeError` — the only exception source inside
`parse_product`'s `try` block under this model. -/

/-- A `next_sibling` node: navigable string or tag. -/
inductive Sib where
  | text (s : String)
  | tag
deriving DecidableEq, Repr

/-- Abstracted listing element. -/
structure Element where
  brand : Option String := none
  model : Option String := none
  price : Option String := none
  condition : Option String := none
  attributes : Option (List (String × Option Sib)) := none
  href : Option String := none
deriving DecidableEq, Repr

/-- The site base URL prepended to product links. -/
def base_url : String := "https://www.2ndswing.com"

/-- The attribute-label loop of `parse_product`: each label's
`next_sibling` is skipped when `None` or falsy (empty string), dispatched by
label substring when a nonempty string, and raises (aborting the whole
parse) when a `Tag`. -/
def applyAttrs : List (String × Option Sib) → ProductInfo → Option ProductInfo
  | [], info => some info
  | (label, sib) :: rest, info =>
    match sib with
    | none => applyAttrs rest info
    | some .tag => none
    | some (.text s) =>
      if s.isEmpty then applyAttrs rest info
      else
        let v := pyStrip s " :,"
        let lt := pyTrim label
        let info2 :=
          if hasSub lt "Dexterity:" then { info with Dexterity := v }
          else if hasSub lt "Loft:" then { info with Loft := v }
          else if hasSub lt "Flex:" then { info with Flex := v }
          else if hasSub lt "Shaft:" then { info with Shaft := v }
          else info
        applyAttrs rest info2

/-- The four unconditional labelled sub-fields of `parse_product`:
defaults of `''`/`None`, each present sub-element fills its field with its
stripped text. -/
def parse_fields (e : Element) : ProductInfo :=
  let info0 : ProductInfo :=
    { Brand := "", Model := "", Price := none, Condition := "",
      Dexterity := "", Loft := "", Flex := "", Shaft := "", URL := "" }
  let info1 :=
    match e.brand with
    | some s => { info0 with Brand := pyTrim s }
    | none => info0
  let info2 :=
    match e.model with
    | some s => { info1 with Model := pyTrim s }
    | none => info1
  let info3 :=
    match e.price with
    | some s => { info2 with Price := clean_price (pyTrim s) }
    | none => info2
  match e.condition with
  | some s => { info3 with Condition := pyTrim s }
  | none => info3

/-- The final URL fill of `parse_product`: resolve the product link against
the site base when the link element is present. -/
def applyHref (e : Element) (i : ProductInfo) : ProductInfo :=
  match e.href with
  | some h => { i with URL := base_url ++ h }
  | none => i

/-- `parse_product`: fill the labelled sub-fields, run the attribute loop
(whose raising sibling makes the whole element parse to `None`, the
`except` branch), then resolve the product URL.  A missing sub-element
leaves the default empty string. -/
def parse_product (e : Element) : Option ProductInfo :=
  let info4 := parse_fields e
  let withAttrs :=
    match e.attributes with
    | some labels => applyAttrs labels info4
    | none => some info4
  match withAttrs with
  | none => none
  | some info5 => some (applyHref e info5)

/-! ### Fetcher: `make_request` (Streamlit) / `_make_request` (Snowpark)

The attempt loop is identical in both variants: `for attempt in
range(retry_count)`, return the response on success, re-raise at
`attempt == retry_count - 1`, otherwise back off and retry.  The network is
abstracted by a map from attempt index to the outcome the `GET` would have
at that attempt; responses and errors are abstract tokens (`Nat`). -/

/-- Outcome of one HTTP GET attempt. -/
inductive ReqOutcome where
  | success (resp : Nat)
  | failure (err : Nat)
deriving DecidableEq, Repr

/-- Result of the whole attempt loop: a returned response or a re-raised
error. -/
inductive ReqResult where
  | ok (resp : Nat)
  | raised (err : Nat)
deriving DecidableEq, Repr

/-- The attempt loop from position `attempt`, with explicit fuel; returns
the Python result (`none` = fell through `range`, only possible for
`retry_count = 0`) and the number of GET attempts issued. -/
def makeRequestAux (outcomes : Nat → ReqOutcome) (retry_count : Nat) :
    Nat → Nat → Option ReqResult × Nat
  | attempt, 0 => (none, attempt)
  | attempt, fuel + 1 =>
    if attempt < retry_count then
      match outcomes attempt with
      | .success r => (some (.ok r), attempt + 1)
      | .failure e =>
        if attempt = retry_count - 1 then (some (.raised e), attempt + 1)
        else makeRequestAux outcomes retry_count (attempt + 1) fuel
    else (none, attempt)

/-- `make_request(url, retry_count)`: the retry loop of both fetchers. -/
def make_request (outcomes : Nat → ReqOutcome) (retry_count : Nat) :
    Option ReqResult × Nat :=
  makeRequestAux outcomes retry_count 0 retry_count

/-! ### 429 wait computation (Streamlit `make_request`)

On an HTTP 429, the dashboard fetcher computes `retry_after` from the
`Retry-After` header when parseable as a float, otherwise `delay * 2`,
where `delay = base_delay + attempt * 2 + random.uniform(1, 3)` is the
randomized delay already slept before the request.  The random jitter is an
explicit parameter. -/

/-- `delay = base_delay + (attempt * 2) + random.uniform(1, 3)`. -/
def attemptDelay (base_delay attempt : Nat) (jitter : ℚ) : ℚ :=
  (base_delay : ℚ) + (attempt : ℚ) * 2 + jitter

/-- The seconds slept on a 429 before retrying: the parsed `Retry-After`
header when present and parseable, else `delay * 2`. -/
def wait_on_429 (base_delay attempt : Nat) (jitter : ℚ)
    (retryAfter : Option String) : ℚ :=
  let delay := attemptDelay base_delay attempt jitter
  match retryAfter with
  | some v =>
    match pyFloat v with
    | some q => q
    | none => delay * 2
  | none => delay * 2

/-- The backoff formula the spec claims for the 429 fallback:
`base delay × 2^attempt + jitter` (stated from the spec's words, for
comparison with `wait_on_429`). -/
def specClaimedBackoff (base_delay attempt : Nat) (jitter : ℚ) : ℚ :=
  (base_delay : ℚ) * 2 ^ attempt + jitter

/-- The non-429 transient backoff of the dashboard fetcher:
`(2 ** attempt) + random.uniform(0, 1)`. -/
def transientBackoff (attempt : Nat) (jitter : ℚ) : ℚ :=
  (2 : ℚ) ^ attempt + jitter

/-- The script fetcher's backoff between failed attempts: `2 ** attempt`,
with no jitter and no `Retry-After` handling. -/
def snowparkBackoff (attempt : Nat) : Nat := 2 ^ attempt

/-! ### Paginator: `scrape_products`

The page sequence is abstracted by what fetching page `n` yields: a
permanent fetch failure (the raised exception caught by the loop's
`except`), or a parsed page with its listing elements and whether an
`a.next` link is present.  The loop starts at page 1, stops past
`max_pages`, on a failed fetch, on a page with no listing elements, or on a
missing next link; listing elements are parsed one by one and `None`
parses are dropped. -/

/-- Result of fetching and souping one page. -/
inductive FetchOutcome where
  | ok (elements : List Element) (hasNext : Bool)
  | err
deriving DecidableEq, Repr

/-- Page URL: bare catalog URL for page 1, `?p=N` appended for `N > 1`. -/
def pageUrl (url : String) (n : Nat) : String :=
  if n > 1 then url ++ "?p=" ++ toString n else url

/-- The scraping while-loop from `current` with explicit fuel and
accumulator (fuel `max_pages` at page 1 covers every reachable iteration:
`current + fuel = max_pages + 1` is invariant, and at fuel 0 the
`current ≤ max_pages` guard fails too). -/
def scrapeAux (pages : Nat → FetchOutcome) (max_pages : Nat) :
    Nat → Nat → List ProductInfo → List ProductInfo
  | _, 0, acc => acc
  | current, fuel + 1, acc =>
    if current ≤ max_pages then
      match pages current with
      | .err => acc
      | .ok elems hasNext =>
        if elems.isEmpty then acc
        else if hasNext then
          scrapeAux pages max_pages (current + 1) fuel
            (acc ++ elems.filterMap parse_product)
        else acc ++ elems.filterMap parse_product
    else acc

/-- The record-collection loop of `scrape_products`. -/
def scrapeLoop (pages : Nat → FetchOutcome) (max_pages : Nat) :
    List ProductInfo :=
  scrapeAux pages max_pages 1 max_pages []

/-- Listing elements of a page outcome (empty for a failed fetch). -/
def pageItems : FetchOutcome → List Element
  | .ok es _ => es
  | .err => []

/-- Records contributed by pages `c, c+1, …, c+k-1`. -/
def pagesConcat (pages : Nat → FetchOutcome) (c k : Nat) : List ProductInfo :=
  (List.range' c k).flatMap (fun i => (pageItems (pages i)).filterMap parse_product)

/-- Page `i` fetched fine, had listing elements, and had a next link. -/
def goodPage (f : FetchOutcome) : Prop :=
  match f with
  | .ok es true => es ≠ []
  | _ => False

/-! ### Output ordering: `df.sort_values(['Price', 'Brand'], ascending=[False, True])`

Pandas' multi-column `sort_values` is a stable lexicographic sort; `NaN`
prices go last (`na_position='last'`).  Modelled as a stable insertion sort
under the corresponding key order. -/

/-- Strict "comes before" on prices: descending, absent last. -/
def priceBefore (a b : Option ℚ) : Bool :=
  match a, b with
  | some x, some y => decide (y < x)
  | some _, none => true
  | _, _ => false

/-- Price keys tie (equal values, or both absent). -/
def priceTies (a b : Option ℚ) : Bool :=
  match a, b with
  | some x, some y => decide (x = y)
  | none, none => true
  | _, _ => false

/-- Sort key order of `sort_values(['Price', 'Brand'],
ascending=[False, True])`: price descending (absent last), then brand
ascending. -/
def rowLe (a b : Row) : Bool :=
  priceBefore a.Price b.Price ||
    (priceTies a.Price b.Price && decide (a.Brand ≤ b.Brand))

/-- Stable ordered insertion under `rowLe`. -/
def sortInsert (a : Row) : List Row → List Row
  | [] => [a]
  | b :: t => if rowLe a b then a :: b :: t else b :: sortInsert a t

/-- `df.sort_values(['Price', 'Brand'], ascending=[False, True])`:
stable sort by price descending then brand ascending. -/
def sort_values : List Row → List Row
  | [] => []
  | a :: t => sortInsert a (sort_values t)

/-- Both sort keys tie: same price key and same brand. -/
def rowTies (a b : Row) : Bool :=
  priceTies a.Price b.Price && a.Brand == b.Brand

/-! ### Result frame of `scrape_products`

`pd.DataFrame(products)` on the empty list has *no columns at all*; only a
non-empty frame gets the SOURCE_URL and DRIVER_ID columns, the identity
tagging, and the sort.  The frame is modelled as its column list plus its
rows. -/

/-- Column names of a non-empty scraped frame, in pipeline order. -/
def scrapedColumns : List String :=
  ["Brand", "Model", "Price", "Condition", "Dexterity", "Loft", "Flex",
   "Shaft", "URL", "SOURCE_URL", "DRIVER_ID"]

/-- `scrape_products`: run the page loop, then (only when non-empty) tag
SOURCE_URL and DRIVER_ID and sort.  Returns the frame's columns and rows. -/
def scrape_products (pages : Nat → FetchOutcome) (url : String)
    (max_pages : Nat) : List String × List Row :=
  let products := scrapeLoop pages max_pages
  if products.isEmpty then ([], [])
  else (scrapedColumns, sort_values (products.map (tagRow url)))

/-! ### Reconciler: the `MERGE INTO GOLF_DRIVERS` upsert

Both variants run the same `MERGE` keyed on `DRIVER_ID`:
`WHEN MATCHED AND target.PRICE != source.PRICE` updates `PRICE`,
`SOURCE_URL` and `LAST_UPDATED`; `WHEN NOT MATCHED` inserts with
`FIRST_SEEN = LAST_UPDATED = CURRENT_TIMESTAMP()`.  SQL `!=` is
three-valued: a comparison with a `NULL` price is not true, so such rows do
not update.  The store is a list of rows; `now` is the merge timestamp. -/

/-- A persisted `GOLF_DRIVERS` row. -/
structure StoredRow extends Row where
  FIRST_SEEN : Nat
  LAST_UPDATED : Nat
deriving DecidableEq, Repr

/-- SQL `!=` on nullable prices: true only when both are non-NULL and
differ. -/
def sqlNe (a b : Option ℚ) : Bool :=
  match a, b with
  | some x, some y => decide (x ≠ y)
  | _, _ => false

/-- `WHEN NOT MATCHED THEN INSERT … CURRENT_TIMESTAMP(), CURRENT_TIMESTAMP()`. -/
def insertRow (s : Row) (now : Nat) : StoredRow :=
  { toRow := s, FIRST_SEEN := now, LAST_UPDATED := now }

/-- The `WHEN MATCHED` side of the merge for one target row: update
`PRICE`, `SOURCE_URL` and `LAST_UPDATED` when the matching staged row's
price SQL-differs, otherwise leave the row as is. -/
def mergeRow (source : List Row) (now : Nat) (t : StoredRow) : StoredRow :=
  match source.find? (fun s => s.DRIVER_ID == t.DRIVER_ID) with
  | some s =>
    if sqlNe t.Price s.Price then
      { t with Price := s.Price, SOURCE_URL := s.SOURCE_URL,
               LAST_UPDATED := now }
    else t
  | none => t

/-- The `MERGE INTO GOLF_DRIVERS` statement on store `target` and staged
batch `source`. -/
def mergeGolfDrivers (target : List StoredRow) (source : List Row)
    (now : Nat) : List StoredRow :=
  target.map (mergeRow source now)
  ++ (source.filter
        (fun s => !target.any (fun t => t.DRIVER_ID == s.DRIVER_ID))).map
      (fun s => insertRow s now)

/-- The `new_records` statistics query: staged rows with no matching
`DRIVER_ID` in `GOLF_DRIVERS` (run against the store as it is when the
query executes). -/
def newRecordsCount (store : List StoredRow) (source : List Row) : Nat :=
  (source.filter
    (fun s => !store.any (fun t => t.DRIVER_ID == s.DRIVER_ID))).length

/-- The `updated_records` statistics query: join pairs on `DRIVER_ID` with
`t.PRICE != s.PRICE` (run against the store as it is when the query
executes). -/
def updatedRecordsCount (store : List StoredRow) (source : List Row) : Nat :=
  (source.map (fun s =>
    (store.filter (fun t =>
      t.DRIVER_ID == s.DRIVER_ID && sqlNe t.Price s.Price)).length)).sum

/-- `upload_to_snowflake`: run the merge, then compute both statistics
queries against the already-merged store, in source order. -/
def upload_to_snowflake (store : List StoredRow) (source : List Row)
    (now : Nat) : List StoredRow × Nat × Nat :=
  let merged := mergeGolfDrivers store source now
  (merged, newRecordsCount merged source, updatedRecordsCount merged source)

/-! ## Claims -/

/-! ### C4: price parsing -/

/-- C4: price parsing strips the currency symbol and thousands separators
and returns the numeric value ("$1,234.50" yields 1234.50); a failed parse
("" or "N/A") yields an absent value, never 0.0 and never an error: every
input yields either `none` or the exact value the cleaned string parses
to. -/
theorem clean_price_spec :
    clean_price "$1,234.50" = some ((2469 : ℚ) / 2)
    ∧ clean_price "" = none
    ∧ clean_price "N/A" = none
    ∧ (∀ s : String,
        pyFloat (pyTrim (removeAll (removeAll s '$') ',')) = none →
          clean_price s = none)
    ∧ (∀ s : String, clean_price s = none ∨
        ∃ q : ℚ, clean_price s = some q ∧
          pyFloat (pyTrim (removeAll (removeAll s '$') ',')) = some q) := by
  have hscan : pyFloatScan (pyTrim (removeAll (removeAll "$1,234.50" '$') ',')) =
      some ⟨false, 1234, 50, 2, 0⟩ := by decide
  refine ⟨?_, by decide, by decide, ?_, ?_⟩
  · show pyFloat (pyTrim (removeAll (removeAll "$1,234.50" '$') ',')) = _
    rw [pyFloat, hscan]
    norm_num [decValue, qPow10]
  · intro s h
    simpa [clean_price] using h
  · intro s
    rcases h : clean_price s with _ | q
    · exact Or.inl rfl
    · exact Or.inr ⟨q, rfl, by simpa [clean_price] using h⟩

/-- C4 witness: the failure branch at "N/A" and the totality disjunction at
"7". -/
theorem clean_price_spec_witness :
    clean_price "N/A" = none ∧
    (clean_price "7" = none ∨
      ∃ q : ℚ, clean_price "7" = some q ∧
        pyFloat (pyTrim (removeAll (removeAll "7" '$') ',')) = some q) :=
  ⟨clean_price_spec.2.2.2.1 "N/A" (by decide),
   clean_price_spec.2.2.2.2 "7"⟩

/-! ### C5: retry behaviour of the fetchers -/

/-- An outcome schedule whose first three attempts fail and whose fourth
would succeed. -/
def threeFailThenOk : Nat → ReqOutcome :=
  fun n => if n < 3 then .failure n else .success 99

/-- C5 counterexample: with retry count 3 the loop issues exactly three
attempts, so "three consecutive transient failures followed by a success"
raises the third failure — it never returns the success available at the
fourth attempt. -/
theorem make_request_three_failures_not_returned :
    make_request threeFailThenOk 3 = (some (.raised 2), 3) ∧
    threeFailThenOk 3 = .success 99 := by
  decide

/-- C5 (amended): with retry count 3, a success at attempt `k` (0-based,
`k < 3`) preceded by `k` transient failures is returned after `k + 1`
attempts; when all three attempts fail, the third failure is raised after
exactly three attempts, regardless of later outcomes. -/
theorem make_request_retry_behavior :
    ∀ outcomes : Nat → ReqOutcome,
      (∀ k r : Nat, k < 3 →
        (∀ i, i < k → ∃ e, outcomes i = .failure e) →
        outcomes k = .success r →
        make_request outcomes 3 = (some (.ok r), k + 1))
      ∧ (∀ e0 e1 e2 : Nat, outcomes 0 = .failure e0 →
          outcomes 1 = .failure e1 → outcomes 2 = .failure e2 →
          make_request outcomes 3 = (some (.raised e2), 3)) := by
  intro outcomes
  constructor
  · intro k r hk hfail hsucc
    match k, hk with
    | 0, _ =>
      simp [make_request, makeRequestAux, hsucc]
    | 1, _ =>
      obtain ⟨e0, h0⟩ := hfail 0 (by omega)
      simp [make_request, makeRequestAux, h0, hsucc]
    | 2, _ =>
      obtain ⟨e0, h0⟩ := hfail 0 (by omega)
      obtain ⟨e1, h1⟩ := hfail 1 (by omega)
      simp [make_request, makeRequestAux, h0, h1, hsucc]
  · intro e0 e1 e2 h0 h1 h2
    simp [make_request, makeRequestAux, h0, h1, h2]

/-- C5 witness: a success at the third attempt is returned; three failures
raise the third error after three attempts. -/
theorem make_request_retry_behavior_witness :
    make_request (fun n => if n < 2 then .failure n else .success 99) 3 =
      (some (.ok 99), 3) ∧
    make_request (fun n => .failure n) 3 = (some (.raised 2), 3) := by
  constructor
  · exact (make_request_retry_behavior _).1 2 99 (by omega)
      (fun i hi => ⟨i, by simp [hi]⟩) (by norm_num)
  · exact (make_request_retry_behavior _).2 0 1 2 rfl rfl rfl

/-! ### C6: the 429 wait computation -/

/-- C6 counterexample: at attempt 1 with base delay 5 and jitter 2 and no
`Retry-After` header, the dashboard fetcher waits 18 seconds
(`(5 + 2·1 + 2) × 2`), not the claimed `5 × 2^1 + 2 = 12`. -/
theorem wait_on_429_not_exponential :
    wait_on_429 5 1 2 none = 18 ∧ specClaimedBackoff 5 1 2 = 12 ∧
    wait_on_429 5 1 2 none ≠ specClaimedBackoff 5 1 2 := by
  refine ⟨?_, ?_, ?_⟩ <;> norm_num [wait_on_429, attemptDelay, specClaimedBackoff]

/-- C6 (amended): on a 429 the dashboard fetcher waits the parsed
`Retry-After` header value when present and parseable as a number;
otherwise (header absent or unparseable) it waits twice the attempt's
randomized pre-request delay, `2 × (base_delay + 2·attempt + jitter)`,
which grows linearly — by 4 seconds per attempt — not exponentially. -/
theorem wait_on_429_behavior :
    ∀ (base_delay attempt : Nat) (jitter : ℚ) (h : String) (q : ℚ),
      (pyFloat h = some q →
        wait_on_429 base_delay attempt jitter (some h) = q)
      ∧ (pyFloat h = none →
          wait_on_429 base_delay attempt jitter (some h) =
            ((base_delay : ℚ) + 2 * attempt + jitter) * 2)
      ∧ wait_on_429 base_delay attempt jitter none =
          ((base_delay : ℚ) + 2 * attempt + jitter) * 2
      ∧ wait_on_429 base_delay (attempt + 1) jitter none -
          wait_on_429 base_delay attempt jitter none = 4 := by
  intro b a j h q
  refine ⟨?_, ?_, ?_, ?_⟩
  · intro hp
    simp [wait_on_429, hp]
  · intro hp
    simp [wait_on_429, attemptDelay, hp]
    ring
  · simp [wait_on_429, attemptDelay]
    ring
  · simp [wait_on_429, attemptDelay]
    ring

/-- C6 witness: the header value is honored when parseable; the fallback at
base delay 5, attempt 0, jitter 1 is 16. -/
theorem wait_on_429_behavior_witness :
    wait_on_429 5 0 1 (some "2.5") = (5 : ℚ) / 2 ∧
    wait_on_429 5 0 1 none = ((5 : ℚ) + 2 * 0 + 1) * 2 := by
  have hp : pyFloat "2.5" = some ((5 : ℚ) / 2) := by
    have : pyFloatScan "2.5" = some ⟨false, 2, 5, 1, 0⟩ := by decide
    rw [pyFloat, this]
    norm_num [decValue, qPow10]
  exact ⟨(wait_on_429_behavior 5 0 1 "2.5" ((5 : ℚ) / 2)).1 hp,
    (wait_on_429_behavior 5 0 1 "x" 0).2.2.1⟩

/-! ### C3: identity determinism -/

/-- `lower` distributes over string concatenation. -/
theorem lowerString_append (a b : String) :
    lowerString (a ++ b) = lowerString a ++ lowerString b := by
  cases a with
  | mk la =>
    cases b with
    | mk lb =>
      show String.mk _ = String.mk _
      simp [lowerString, String.append]

/-- `toBytesLE n x` has exactly `n` bytes. -/
theorem toBytesLE_length (n : Nat) : ∀ x : Nat, (toBytesLE n x).length = n := by
  induction n with
  | zero => intro x; rfl
  | succ n ih => intro x; simp [toBytesLE, ih]

/-- Every byte of `toBytesLE` is below 256. -/
theorem toBytesLE_lt (n : Nat) :
    ∀ x : Nat, ∀ b ∈ toBytesLE n x, b < 256 := by
  induction n with
  | zero => intro x b hb; cases hb
  | succ n ih =>
    intro x b hb
    rcases hb with _ | ⟨_, hb⟩
    · exact Nat.mod_lt _ (by omega)
    · exact ih _ _ hb

/-- The MD5 digest always has 16 bytes. -/
theorem md5Bytes_length (msg : List Nat) : (md5Bytes msg).length = 16 := by
  simp [md5Bytes, md5Final, toBytesLE_length]

/-- Every MD5 digest byte is below 256. -/
theorem md5Bytes_lt (msg : List Nat) : ∀ b ∈ md5Bytes msg, b < 256 := by
  intro b hb
  simp only [md5Bytes, md5Final, List.mem_append] at hb
  rcases hb with ((h | h) | h) | h <;> exact toBytesLE_lt _ _ _ h

/-- Hex digits produced by `hexChar` belong to the hex alphabet. -/
theorem hexChar_mem (n : Nat) : hexChar n ∈ "0123456789abcdef".data := by
  by_cases h : n < 16
  · interval_cases n <;> decide
  · rw [hexChar, List.getD_eq_default]
    · decide
    · simpa using by omega

/-- A hex digest string is twice as long as its byte list. -/
theorem flatMap_byteHex_length (l : List Nat) :
    (l.flatMap byteHex).length = 2 * l.length := by
  induction l with
  | nil => rfl
  | cons b t ih => simp [byteHex, ih]; omega

/-- `md5Hex` always yields 32 characters. -/
theorem md5Hex_length (s : String) : (md5Hex s).length = 32 := by
  show ((md5Bytes (strBytes s)).flatMap byteHex).length = 32
  rw [flatMap_byteHex_length, md5Bytes_length]

/-- Every character of an `md5Hex` digest is a lowercase hex digit. -/
theorem md5Hex_mem_hex (s : String) :
    ∀ c ∈ (md5Hex s).data, c ∈ "0123456789abcdef".data := by
  intro c hc
  simp only [md5Hex, List.mem_flatMap] at hc
  obtain ⟨b, _, hb⟩ := hc
  rcases hb with _ | ⟨_, hb⟩
  · exact hexChar_mem _
  · rcases hb with _ | ⟨_, hb⟩
    · exact hexChar_mem _
    · cases hb

/-- C3: two records whose seven identity fields agree as case-folded
strings get the same DRIVER_ID, whatever their Price and URL; the digest is
always 32 lowercase hex characters (128 bits). -/
theorem create_driver_id_deterministic :
    ∀ r1 r2 : ProductInfo,
      lowerString r1.Brand = lowerString r2.Brand →
      lowerString r1.Model = lowerString r2.Model →
      lowerString r1.Condition = lowerString r2.Condition →
      lowerString r1.Dexterity = lowerString r2.Dexterity →
      lowerString r1.Loft = lowerString r2.Loft →
      lowerString r1.Flex = lowerString r2.Flex →
      lowerString r1.Shaft = lowerString r2.Shaft →
      create_driver_id r1 = create_driver_id r2
      ∧ (create_driver_id r1).length = 32
      ∧ ∀ c ∈ (create_driver_id r1).data, c ∈ "0123456789abcdef".data := by
  intro r1 r2 h1 h2 h3 h4 h5 h6 h7
  refine ⟨?_, md5Hex_length _, md5Hex_mem_hex _⟩
  show md5Hex _ = md5Hex _
  congr 1
  simp only [lowerString_append, h1, h2, h3, h4, h5, h6, h7]

/-- C3 witness: records differing only in letter case, price and URL share
their 32-hex-character DRIVER_ID. -/
theorem create_driver_id_deterministic_witness :
    create_driver_id
        { Brand := "Ping", Model := "G425", Price := some 100,
          Condition := "Used", Dexterity := "Right", Loft := "9",
          Flex := "Stiff", Shaft := "X", URL := "u1" } =
      create_driver_id
        { Brand := "PING", Model := "g425", Price := none,
          Condition := "USED", Dexterity := "right", Loft := "9",
          Flex := "STIFF", Shaft := "x", URL := "u2" } ∧
    (create_driver_id
        { Brand := "Ping", Model := "G425", Price := some 100,
          Condition := "Used", Dexterity := "Right", Loft := "9",
          Flex := "Stiff", Shaft := "X", URL := "u1" }).length = 32 := by
  have h := create_driver_id_deterministic
    { Brand := "Ping", Model := "G425", Price := some 100,
      Condition := "Used", Dexterity := "Right", Loft := "9",
      Flex := "Stiff", Shaft := "X", URL := "u1" }
    { Brand := "PING", Model := "g425", Price := none,
      Condition := "USED", Dexterity := "right", Loft := "9",
      Flex := "STIFF", Shaft := "x", URL := "u2" }
    (by decide) (by decide) (by decide) (by decide) (by decide) (by decide)
    (by decide)
  exact ⟨h.1, h.2.1⟩

/-! ### C1 / C2: merge semantics and the statistics queries -/

/-- Sample staged row with the given brand, key and price (other fields
fixed). -/
def mkRow (brand id : String) (price : Option ℚ) : Row :=
  { Brand := brand, Model := "M", Price := price, Condition := "C",
    Dexterity := "D", Loft := "L", Flex := "F", Shaft := "S", URL := "U",
    SOURCE_URL := "SU", DRIVER_ID := id }

/-- Sample stored row with the given brand, key, price and timestamps. -/
def mkStored (brand id : String) (price : Option ℚ) (fs lu : Nat) :
    StoredRow :=
  { toRow := mkRow brand id price, FIRST_SEEN := fs, LAST_UPDATED := lu }

/-- `sqlNe` is irreflexive: a row updated to the staged price (or equal to
it) never SQL-differs from it. -/
theorem sqlNe_self (a : Option ℚ) : sqlNe a a = false := by
  cases a <;> simp [sqlNe]

/-- In a key-unique list, members with equal keys are equal. -/
theorem key_unique_eq {l : List Row}
    (hu : l.Pairwise (fun a b => a.DRIVER_ID ≠ b.DRIVER_ID)) :
    ∀ a ∈ l, ∀ b ∈ l, a.DRIVER_ID = b.DRIVER_ID → a = b := by
  induction l with
  | nil => intro a ha; cases ha
  | cons h t ih =>
    rw [List.pairwise_cons] at hu
    intro a ha b hb hk
    rcases List.mem_cons.1 ha with rfl | ha' <;>
      rcases List.mem_cons.1 hb with rfl | hb'
    · rfl
    · exact absurd hk (hu.1 b hb')
    · exact absurd hk.symm (hu.1 a ha')
    · exact ih hu.2 a ha' b hb' hk

/-- In a key-unique list, `find?` by key returns the member with that
key. -/
theorem find?_key_of_mem {l : List Row}
    (hu : l.Pairwise (fun a b => a.DRIVER_ID ≠ b.DRIVER_ID))
    {s : Row} (hs : s ∈ l) {k : String} (hk : s.DRIVER_ID = k) :
    l.find? (fun x => x.DRIVER_ID == k) = some s := by
  induction l with
  | nil => cases hs
  | cons h t ih =>
    rw [List.pairwise_cons] at hu
    rcases List.mem_cons.1 hs with rfl | hs'
    · exact List.find?_cons_of_pos _ (by simp [hk])
    · rw [List.find?_cons_of_neg, ih hu.2 hs']
      have hne : h.DRIVER_ID ≠ k := hk ▸ hu.1 s hs'
      simp [hne]

/-- `find?` by a key no member has returns `none`. -/
theorem find?_key_none {l : List Row} {k : String}
    (h : ∀ s ∈ l, s.DRIVER_ID ≠ k) :
    l.find? (fun x => x.DRIVER_ID == k) = none := by
  rw [List.find?_eq_none]
  intro x hx
  simpa using h x hx

/-- `mergeRow` never changes a row's key or `FIRST_SEEN`. -/
theorem mergeRow_preserves (source : List Row) (now : Nat) (t : StoredRow) :
    (mergeRow source now t).DRIVER_ID = t.DRIVER_ID ∧
    (mergeRow source now t).FIRST_SEEN = t.FIRST_SEEN := by
  unfold mergeRow
  cases source.find? (fun s => s.DRIVER_ID == t.DRIVER_ID) with
  | none => exact ⟨rfl, rfl⟩
  | some s =>
    by_cases h : sqlNe t.Price s.Price <;> simp [h]

/-- After the merge, no merged row's price SQL-differs from a staged row
with the same key (given the staged batch is key-unique). -/
theorem merged_price_agrees {store : List StoredRow} {batch : List Row}
    {now : Nat}
    (hu : batch.Pairwise (fun a b => a.DRIVER_ID ≠ b.DRIVER_ID)) :
    ∀ t' ∈ mergeGolfDrivers store batch now, ∀ s ∈ batch,
      t'.DRIVER_ID = s.DRIVER_ID → sqlNe t'.Price s.Price = false := by
  intro t' ht' s hs hk
  rcases List.mem_append.1 ht' with h | h
  · obtain ⟨t, _, rfl⟩ := List.mem_map.1 h
    have hid : t.DRIVER_ID = s.DRIVER_ID := by
      rw [← (mergeRow_preserves batch now t).1]; exact hk
    have hf : batch.find? (fun x => x.DRIVER_ID == t.DRIVER_ID) = some s :=
      find?_key_of_mem hu hs hid.symm
    simp only [mergeRow, hf]
    by_cases hne : sqlNe t.Price s.Price
    · simp [hne, sqlNe_self]
    · rw [if_neg hne]
      simpa using hne
  · obtain ⟨s', hs', rfl⟩ := List.mem_map.1 h
    have hsm : s' ∈ batch := (List.mem_filter.1 hs').1
    have : s' = s := key_unique_eq hu s' hsm s hs hk
    subst this
    exact sqlNe_self _

/-- Every staged key is present in the merged store (inserted when new,
carried by its matched target row otherwise). -/
theorem merged_has_batch_ids (store : List StoredRow) (batch : List Row)
    (now : Nat) :
    ∀ s ∈ batch, ∃ t' ∈ mergeGolfDrivers store batch now,
      t'.DRIVER_ID = s.DRIVER_ID := by
  intro s hs
  by_cases h : store.any (fun t => t.DRIVER_ID == s.DRIVER_ID)
  · obtain ⟨t, ht, htk⟩ := List.any_eq_true.1 h
    refine ⟨mergeRow batch now t,
      List.mem_append.2 (.inl (List.mem_map_of_mem _ ht)), ?_⟩
    rw [(mergeRow_preserves batch now t).1]
    exact beq_iff_eq.1 htk
  · refine ⟨insertRow s now, List.mem_append.2 (.inr ?_), rfl⟩
    refine List.mem_map_of_mem _ (List.mem_filter.2 ⟨hs, ?_⟩)
    simpa using h

/-- C1 counterexample: a stored row with `NULL` price matched by an
incoming row with price 100 — the prices differ, yet the merge leaves the
row unchanged (no price, source-URL or `LAST_UPDATED` write), because SQL
`target.PRICE != source.PRICE` is not true when either side is `NULL`. -/
theorem merge_null_price_no_update :
    (mkStored "B" "k" none 1 1).DRIVER_ID = (mkRow "B" "k" (some 100)).DRIVER_ID
    ∧ (mkStored "B" "k" none 1 1).Price ≠ (mkRow "B" "k" (some 100)).Price
    ∧ mergeGolfDrivers [mkStored "B" "k" none 1 1] [mkRow "B" "k" (some 100)] 5 =
        [mkStored "B" "k" none 1 1]
    ∧ (mkStored "B" "k" none 1 1).LAST_UPDATED ≠ 5 := by
  refine ⟨rfl, by simp [mkStored, mkRow], ?_, by simp [mkStored, mkRow]⟩
  simp [mergeGolfDrivers, mergeRow, mkStored, mkRow, sqlNe]

/-- C1 (amended): for a key-unique batch merged into the store, each
incoming identity not present is inserted with
`FIRST_SEEN = LAST_UPDATED = now`; each incoming identity present whose
stored and incoming prices are both non-NULL and differ gets exactly its
price, source URL and `LAST_UPDATED` rewritten; each other matched row
(equal prices, or either price NULL) is left unchanged; and no stored row
is ever deleted (every key survives with its `FIRST_SEEN`). -/
theorem merge_semantics :
    ∀ (store : List StoredRow) (batch : List Row) (now : Nat),
      batch.Pairwise (fun a b => a.DRIVER_ID ≠ b.DRIVER_ID) →
      (∀ s ∈ batch, (∀ t ∈ store, t.DRIVER_ID ≠ s.DRIVER_ID) →
        insertRow s now ∈ mergeGolfDrivers store batch now ∧
        (insertRow s now).FIRST_SEEN = now ∧
        (insertRow s now).LAST_UPDATED = now)
      ∧ (∀ t ∈ store, ∀ s ∈ batch, t.DRIVER_ID = s.DRIVER_ID →
          (sqlNe t.Price s.Price = true →
            { t with Price := s.Price, SOURCE_URL := s.SOURCE_URL,
                     LAST_UPDATED := now } ∈ mergeGolfDrivers store batch now)
          ∧ (sqlNe t.Price s.Price = false →
              t ∈ mergeGolfDrivers store batch now))
      ∧ (∀ t ∈ store, (∀ s ∈ batch, s.DRIVER_ID ≠ t.DRIVER_ID) →
          t ∈ mergeGolfDrivers store batch now)
      ∧ (∀ t ∈ store, ∃ t' ∈ mergeGolfDrivers store batch now,
          t'.DRIVER_ID = t.DRIVER_ID ∧ t'.FIRST_SEEN = t.FIRST_SEEN) := by
  intro store batch now hu
  refine ⟨?_, ?_, ?_, ?_⟩
  · intro s hs hnew
    refine ⟨List.mem_append.2 (.inr ?_), rfl, rfl⟩
    refine List.mem_map_of_mem _ (List.mem_filter.2 ⟨hs, ?_⟩)
    simp only [Bool.not_eq_eq_eq_not, Bool.not_true, List.any_eq_false]
    intro t ht
    simpa using hnew t ht
  · intro t ht s hs hk
    have hf : batch.find? (fun x => x.DRIVER_ID == t.DRIVER_ID) = some s :=
      find?_key_of_mem hu hs hk.symm
    constructor
    · intro hne
      have : mergeRow batch now t =
          { t with Price := s.Price, SOURCE_URL := s.SOURCE_URL,
                   LAST_UPDATED := now } := by
        simp [mergeRow, hf, hne]
      exact this ▸ List.mem_append.2 (.inl (List.mem_map_of_mem _ ht))
    · intro hne
      have : mergeRow batch now t = t := by
        simp [mergeRow, hf, hne]
      exact this ▸ List.mem_append.2 (.inl (List.mem_map_of_mem _ ht))
  · intro t ht hmiss
    have : mergeRow batch now t = t := by
      simp [mergeRow, find?_key_none hmiss]
    exact this ▸ List.mem_append.2 (.inl (List.mem_map_of_mem _ ht))
  · intro t ht
    exact ⟨mergeRow batch now t,
      List.mem_append.2 (.inl (List.mem_map_of_mem _ ht)),
      (mergeRow_preserves batch now t).1, (mergeRow_preserves batch now t).2⟩

/-- C1 witness: a fresh identity is inserted with both timestamps set to
the merge time. -/
theorem merge_semantics_witness :
    insertRow (mkRow "B" "k2" (some 5)) 9 ∈
      mergeGolfDrivers [mkStored "A" "k1" (some 10) 1 1]
        [mkRow "B" "k2" (some 5)] 9 ∧
    (insertRow (mkRow "B" "k2" (some 5)) 9).FIRST_SEEN = 9 ∧
    (insertRow (mkRow "B" "k2" (some 5)) 9).LAST_UPDATED = 9 :=
  (merge_semantics [mkStored "A" "k1" (some 10) 1 1]
      [mkRow "B" "k2" (some 5)] 9 (List.pairwise_singleton _ _)).1
    (mkRow "B" "k2" (some 5)) (by simp)
    (by intro t ht; simp only [List.mem_singleton] at ht; subst ht
        simp [mkStored, mkRow])

/-- Both post-merge statistics queries always count zero rows for a
key-unique batch. -/
theorem uploadCountsZeroAux :
    ∀ (store : List StoredRow) (batch : List Row) (now : Nat),
      batch.Pairwise (fun a b => a.DRIVER_ID ≠ b.DRIVER_ID) →
      (upload_to_snowflake store batch now).2 = (0, 0) := by
  intro store batch now hu
  show (newRecordsCount _ batch, updatedRecordsCount _ batch) = (0, 0)
  rw [Prod.mk.injEq]
  refine ⟨?_, ?_⟩
  · show newRecordsCount (mergeGolfDrivers store batch now) batch = 0
    rw [newRecordsCount, List.length_eq_zero, List.filter_eq_nil_iff]
    intro s hs
    obtain ⟨t', ht', hid⟩ := merged_has_batch_ids store batch now s hs
    simp only [Bool.not_eq_eq_eq_not, Bool.not_true, Bool.not_eq_true',
      Bool.not_eq_false]
    exact List.any_eq_true.2 ⟨t', ht', by simp [hid]⟩
  · show updatedRecordsCount (mergeGolfDrivers store batch now) batch = 0
    rw [updatedRecordsCount]
    apply List.sum_eq_zero
    intro x hx
    obtain ⟨s, hs, rfl⟩ := List.mem_map.1 hx
    rw [List.length_eq_zero, List.filter_eq_nil_iff]
    intro t' ht'
    by_cases hk : t'.DRIVER_ID = s.DRIVER_ID
    · simp [merged_price_agrees hu t' ht' s hs hk]
    · simp [hk]

/-- C2: the statistics queries run *after* the merge, against the
already-merged store; every staged key then exists in the store and no
joined pair still SQL-differs in price, so for any key-unique batch both
reported counts are 0 — never the claimed `inserted = N` on a batch of `N`
new identities. -/
theorem upload_counts_always_zero :
    ∀ (store : List StoredRow) (batch : List Row) (now : Nat),
      batch.Pairwise (fun a b => a.DRIVER_ID ≠ b.DRIVER_ID) →
      (upload_to_snowflake store batch now).2 = (0, 0) :=
  uploadCountsZeroAux

/-- C2 witness (the failing input of the claim): an empty store and a batch
of one new identity report `inserted = 0, updated = 0`, not
`inserted = 1`. -/
theorem upload_counts_always_zero_witness :
    (upload_to_snowflake [] [mkRow "B" "newid" (some 50)] 7).2 = (0, 0) :=
  upload_counts_always_zero [] [mkRow "B" "newid" (some 50)] 7
    (List.pairwise_singleton _ _)

/-! ### C8: parse isolation -/

/-- An element none of whose attribute siblings is a raising `Tag`. -/
def benignElem (e : Element) : Prop :=
  match e.attributes with
  | none => True
  | some l => ∀ p ∈ l, p.2 ≠ some Sib.tag

/-- The attribute loop succeeds on benign label lists. -/
theorem applyAttrs_some (l : List (String × Option Sib)) :
    ∀ info : ProductInfo, (∀ p ∈ l, p.2 ≠ some Sib.tag) →
      ∃ r, applyAttrs l info = some r := by
  induction l with
  | nil => intro info _; exact ⟨info, rfl⟩
  | cons p t ih =>
    intro info hb
    obtain ⟨label, sib⟩ := p
    match sib with
    | none => exact ih info (fun q hq => hb q (List.mem_cons_of_mem _ hq))
    | some .tag => exact absurd rfl (hb (label, some .tag) (List.mem_cons_self _ _))
    | some (.text s) =>
      by_cases hs : s.isEmpty
      · obtain ⟨r, hr⟩ :=
          ih info (fun q hq => hb q (List.mem_cons_of_mem _ hq))
        exact ⟨r, by simpa [applyAttrs, hs] using hr⟩
      · obtain ⟨r, hr⟩ := ih _ (fun q hq => hb q (List.mem_cons_of_mem _ hq))
        exact ⟨r, by simpa [applyAttrs, hs] using hr⟩

/-- The attribute loop never touches the Brand field. -/
theorem applyAttrs_brand (l : List (String × Option Sib)) :
    ∀ (info : ProductInfo) (r : ProductInfo), applyAttrs l info = some r →
      r.Brand = info.Brand := by
  induction l with
  | nil =>
    intro info r h
    cases h
    rfl
  | cons p t ih =>
    intro info r h
    obtain ⟨label, sib⟩ := p
    match sib with
    | none => exact ih info r h
    | some .tag => cases h
    | some (.text s) =>
      by_cases hs : s.isEmpty
      · rw [applyAttrs, if_pos hs] at h
        exact ih info r h
      · rw [applyAttrs, if_neg hs] at h
        rw [ih _ r h]
        by_cases h1 : hasSub (pyTrim label) "Dexterity:" <;>
          by_cases h2 : hasSub (pyTrim label) "Loft:" <;>
          by_cases h3 : hasSub (pyTrim label) "Flex:" <;>
          by_cases h4 : hasSub (pyTrim label) "Shaft:" <;>
          simp [h1, h2, h3, h4]

/-- `parse_fields` leaves Brand at the default empty string when the brand
sub-element is absent. -/
theorem parse_fields_brand_default (e : Element) (h : e.brand = none) :
    (parse_fields e).Brand = "" := by
  rw [parse_fields, h]
  cases e.model <;> cases e.price <;> cases e.condition <;> rfl

/-- C8: a listing element raising during parsing is dropped without
aborting the page (5 elements with a malformed third yield exactly the 4
valid records); any benign element parses successfully, and one merely
missing a sub-element yields the empty string for that field. -/
theorem parse_isolation :
    (∀ (e1 e2 e3 e4 e5 : Element) (r1 r2 r4 r5 : ProductInfo),
      parse_product e1 = some r1 → parse_product e2 = some r2 →
      parse_product e3 = none → parse_product e4 = some r4 →
      parse_product e5 = some r5 →
      [e1, e2, e3, e4, e5].filterMap parse_product = [r1, r2, r4, r5] ∧
      ([e1, e2, e3, e4, e5].filterMap parse_product).length = 4)
    ∧ (∀ e : Element, benignElem e → ∃ r, parse_product e = some r)
    ∧ (∀ e : Element, benignElem e → e.brand = none →
        ∃ r, parse_product e = some r ∧ r.Brand = "") := by
  have key : ∀ e : Element, benignElem e →
      ∃ i, parse_product e = some (applyHref e i) ∧
        i.Brand = (parse_fields e).Brand := by
    intro e hb
    rw [benignElem] at hb
    rcases ha : e.attributes with _ | labels
    · exact ⟨parse_fields e, by simp only [parse_product, ha], rfl⟩
    · rw [ha] at hb
      obtain ⟨r, hr⟩ := applyAttrs_some labels (parse_fields e) hb
      exact ⟨r, by simp only [parse_product, ha, hr],
        applyAttrs_brand labels (parse_fields e) r hr⟩
  refine ⟨?_, ?_, ?_⟩
  · intro e1 e2 e3 e4 e5 r1 r2 r4 r5 h1 h2 h3 h4 h5
    constructor
    · simp [List.filterMap_cons, h1, h2, h3, h4, h5]
    · simp [List.filterMap_cons, h1, h2, h3, h4, h5]
  · intro e hb
    obtain ⟨i, hi, _⟩ := key e hb
    exact ⟨applyHref e i, hi⟩
  · intro e hb hbrand
    obtain ⟨i, hi, hib⟩ := key e hb
    refine ⟨applyHref e i, hi, ?_⟩
    have : (applyHref e i).Brand = i.Brand := by
      rw [applyHref]
      cases e.href <;> rfl
    rw [this, hib, parse_fields_brand_default e hbrand]

/-- C8 witness: one malformed element among five concrete ones yields
exactly the other four records; a benign element missing its brand parses
with an empty Brand. -/
theorem parse_isolation_witness :
    ((([{ brand := some "A" }, { brand := some "B" },
      { attributes := some [("Loft:", some Sib.tag)] },
      { brand := some "D" }, { brand := some "E" }] : List Element).filterMap
        parse_product).length = 4) ∧
    ∃ r, parse_product ({ condition := some "Used" } : Element) = some r ∧
      r.Brand = "" := by
  constructor
  · exact ((parse_isolation.1
      { brand := some "A" } { brand := some "B" }
      { attributes := some [("Loft:", some Sib.tag)] }
      { brand := some "D" } { brand := some "E" }
      _ _ _ _ rfl rfl (by decide) rfl rfl).2)
  · exact parse_isolation.2.2 { condition := some "Used" }
      (by simp [benignElem]) rfl

/-! ### C7: pagination stop conditions -/

/-- The loop's accumulator only ever receives appended records. -/
theorem scrapeAux_append (pages : Nat → FetchOutcome) (m : Nat) :
    ∀ (fuel current : Nat) (acc : List ProductInfo),
      scrapeAux pages m current fuel acc =
        acc ++ scrapeAux pages m current fuel [] := by
  intro fuel
  induction fuel with
  | zero => intro current acc; simp [scrapeAux]
  | succ f ih =>
    intro current acc
    by_cases hc : current ≤ m
    · cases hp : pages current with
      | err => simp [scrapeAux, hc, hp]
      | ok es hn =>
        by_cases he : es.isEmpty
        · simp [scrapeAux, hc, hp, he]
        · cases hn with
          | false => simp [scrapeAux, hc, hp, he]
          | true =>
            simp only [scrapeAux, if_pos hc, hp, he, Bool.false_eq_true,
              if_false, if_true, List.nil_append]
            rw [ih (current + 1) (acc ++ es.filterMap parse_product),
              ih (current + 1) (es.filterMap parse_product),
              List.append_assoc]
    · simp [scrapeAux, hc]

/-- Past the page bound the loop returns the accumulator unchanged. -/
theorem scrapeAux_past_bound (pages : Nat → FetchOutcome) (m : Nat)
    (fuel current : Nat) (acc : List ProductInfo) (h : m < current) :
    scrapeAux pages m current fuel acc = acc := by
  cases fuel with
  | zero => rfl
  | succ f => simp [scrapeAux, Nat.not_le.2 h]

/-- Running the loop across `k` good pages (fetched, non-empty, with a next
link) collects their records in order and continues at page `c + k`. -/
theorem scrapeAux_good_run (pages : Nat → FetchOutcome) (m : Nat) :
    ∀ (k c f : Nat),
      (∀ i, c ≤ i → i < c + k → goodPage (pages i)) → c + k ≤ m + 1 →
      scrapeAux pages m c (f + k) [] =
        pagesConcat pages c k ++ scrapeAux pages m (c + k) f [] := by
  intro k
  induction k with
  | zero => intro c f _ _; simp [pagesConcat]
  | succ k ih =>
    intro c f hg hle
    have hc : c ≤ m := by omega
    have hgc : goodPage (pages c) := hg c le_rfl (by omega)
    cases hp : pages c with
    | err => rw [hp] at hgc; exact hgc.elim
    | ok es hn =>
      rw [hp] at hgc
      cases hn with
      | false => exact hgc.elim
      | true =>
        have hne : es.isEmpty = false := by
          simpa [List.isEmpty_iff] using hgc
        have hfuel : f + (k + 1) = (f + k) + 1 := rfl
        rw [hfuel]
        simp only [scrapeAux, if_pos hc, hp, hne, Bool.false_eq_true,
          if_false, if_true, List.nil_append]
        rw [scrapeAux_append pages m (f + k) (c + 1)
          (es.filterMap parse_product)]
        have hrange : c + (k + 1) = (c + 1) + k := by omega
        rw [ih (c + 1) f
          (fun i h1 h2 => hg i (by omega) (by omega)) (by omega)]
        rw [hrange, ← List.append_assoc]
        congr 1
        simp only [pagesConcat, List.range'_succ, List.flatMap_cons]
        simp [hp, pageItems]

/-- Stop condition (a): with every page up to the bound good, the loop
collects pages `1..max_pages` and stops at the bound. -/
theorem scrapeLoop_max_pages (pages : Nat → FetchOutcome) (m : Nat)
    (hg : ∀ i, 1 ≤ i → i ≤ m → goodPage (pages i)) :
    scrapeLoop pages m = pagesConcat pages 1 m := by
  have h := scrapeAux_good_run pages m m 1 0
    (fun i h1 h2 => hg i h1 (by omega)) (by omega)
  rw [Nat.zero_add] at h
  rw [scrapeLoop, h,
    scrapeAux_past_bound pages m 0 (1 + m) [] (by omega), List.append_nil]

/-- Stop conditions (b) and (d): after `k` good pages, a page with no
listing elements — or a permanently failing fetch — ends the run with the
records of pages `1..k`. -/
theorem scrapeLoop_stops_at (pages : Nat → FetchOutcome) (m k : Nat)
    (hk : k + 1 ≤ m) (hg : ∀ i, 1 ≤ i → i ≤ k → goodPage (pages i))
    (hstop : pages (k + 1) = .err ∨
      ∃ b, pages (k + 1) = .ok [] b) :
    scrapeLoop pages m = pagesConcat pages 1 k := by
  have h := scrapeAux_good_run pages m k 1 (m - k)
    (fun i h1 h2 => hg i h1 (by omega)) (by omega)
  rw [Nat.sub_add_cancel (by omega : k ≤ m)] at h
  rw [scrapeLoop, h]
  have hcur : 1 + k = k + 1 := by omega
  obtain ⟨f, hf⟩ : ∃ f, m - k = f + 1 := ⟨m - k - 1, by omega⟩
  rw [hcur, hf]
  rcases hstop with hp | ⟨b, hp⟩
  · simp [scrapeAux, hk, hp]
  · simp [scrapeAux, hk, hp]

/-- Stop condition (c): after `k` good pages, a non-empty page without a
next link ends the run with the records of pages `1..k+1` included. -/
theorem scrapeLoop_stops_no_next (pages : Nat → FetchOutcome) (m k : Nat)
    (es : List Element) (hk : k + 1 ≤ m)
    (hg : ∀ i, 1 ≤ i → i ≤ k → goodPage (pages i))
    (hlast : pages (k + 1) = .ok es false) (hne : es ≠ []) :
    scrapeLoop pages m = pagesConcat pages 1 (k + 1) := by
  have h := scrapeAux_good_run pages m k 1 (m - k)
    (fun i h1 h2 => hg i h1 (by omega)) (by omega)
  rw [Nat.sub_add_cancel (by omega : k ≤ m)] at h
  rw [scrapeLoop, h]
  have hcur : 1 + k = k + 1 := by omega
  obtain ⟨f, hf⟩ : ∃ f, m - k = f + 1 := ⟨m - k - 1, by omega⟩
  rw [hcur, hf]
  have hemp : es.isEmpty = false := by simpa [List.isEmpty_iff] using hne
  simp only [scrapeAux, if_pos hk, hlast, hemp, Bool.false_eq_true,
    if_false, List.nil_append]
  simp only [pagesConcat]
  rw [show (k + 1) = k + 1 from rfl, List.range'_concat]
  simp [hcur, hlast, pageItems]

/-- C7: scraping stops (a) past the configured max-page count, (b) on a
page with zero listing elements, (c) on a page without a next link, or
(d) on a permanent fetch failure, in each case cleanly returning every
record collected so far (the claim's example: no next link on page 3 with
max 10 collects exactly pages 1–3); page 1 uses the bare catalog URL and
page N > 1 appends the `?p=N` query parameter. -/
theorem scrape_products_stop_conditions :
    (∀ url : String, pageUrl url 1 = url)
    ∧ (∀ (url : String) (n : Nat), 2 ≤ n →
        pageUrl url n = url ++ "?p=" ++ toString n)
    ∧ (∀ (pages : Nat → FetchOutcome) (m : Nat),
        (∀ i, 1 ≤ i → i ≤ m → goodPage (pages i)) →
        scrapeLoop pages m = pagesConcat pages 1 m)
    ∧ (∀ (pages : Nat → FetchOutcome) (m k : Nat), k + 1 ≤ m →
        (∀ i, 1 ≤ i → i ≤ k → goodPage (pages i)) →
        (pages (k + 1) = .err ∨ ∃ b, pages (k + 1) = .ok [] b) →
        scrapeLoop pages m = pagesConcat pages 1 k)
    ∧ (∀ (pages : Nat → FetchOutcome) (m k : Nat) (es : List Element),
        k + 1 ≤ m → (∀ i, 1 ≤ i → i ≤ k → goodPage (pages i)) →
        pages (k + 1) = .ok es false → es ≠ [] →
        scrapeLoop pages m = pagesConcat pages 1 (k + 1))
    ∧ (∀ (pages : Nat → FetchOutcome) (es3 : List Element),
        (∀ i, 1 ≤ i → i ≤ 2 → goodPage (pages i)) →
        pages 3 = .ok es3 false → es3 ≠ [] →
        scrapeLoop pages 10 = pagesConcat pages 1 3) := by
  refine ⟨?_, ?_, scrapeLoop_max_pages, scrapeLoop_stops_at,
    scrapeLoop_stops_no_next, ?_⟩
  · intro url
    simp [pageUrl]
  · intro url n hn
    simp [pageUrl, show 1 < n from by omega]
  · intro pages es3 hg h3 hne
    exact scrapeLoop_stops_no_next pages 10 2 es3 (by omega) hg h3 hne

/-- The concrete page environment of the claim's example: pages 1 and 2
good, page 3 non-empty without a next link, later pages failing. -/
def examplePages : Nat → FetchOutcome :=
  fun n =>
    if n ≤ 2 then .ok [{ brand := some "A" }] true
    else if n = 3 then .ok [{ brand := some "A" }] false
    else .err

/-- C7 witness: the example environment with max 10 collects exactly pages
1–3, and the page URLs have the stated shapes. -/
theorem scrape_products_stop_conditions_witness :
    scrapeLoop examplePages 10 = pagesConcat examplePages 1 3 ∧
    pageUrl "u" 1 = "u" ∧
    pageUrl "u" 2 = "u" ++ "?p=" ++ toString 2 := by
  refine ⟨?_, scrape_products_stop_conditions.1 "u",
    scrape_products_stop_conditions.2.1 "u" 2 (by omega)⟩
  apply scrape_products_stop_conditions.2.2.2.2.2 examplePages
    [{ brand := some "A" }]
  · intro i h1 h2
    interval_cases i <;> simp [examplePages, goodPage]
  · rfl
  · simp

/-! ### C9: output ordering -/

theorem priceTies_refl (a : Option ℚ) : priceTies a a = true := by
  cases a <;> simp [priceTies]

theorem priceTies_symm {a b : Option ℚ} (h : priceTies a b = true) :
    priceTies b a = true := by
  cases a <;> cases b <;> simp_all [priceTies, eq_comm]

theorem priceTies_trans {a b c : Option ℚ} (h1 : priceTies a b = true)
    (h2 : priceTies b c = true) : priceTies a c = true := by
  cases a <;> cases b <;> cases c <;> simp_all [priceTies]

theorem priceBefore_trans {a b c : Option ℚ} (h1 : priceBefore a b = true)
    (h2 : priceBefore b c = true) : priceBefore a c = true := by
  cases a <;> cases b <;> cases c <;> simp_all [priceBefore]
  linarith

theorem priceBefore_ties_left {a b c : Option ℚ}
    (h1 : priceTies a b = true) (h2 : priceBefore b c = true) :
    priceBefore a c = true := by
  cases a <;> cases b <;> cases c <;> simp_all [priceTies, priceBefore]

theorem priceBefore_ties_right {a b c : Option ℚ}
    (h1 : priceBefore a b = true) (h2 : priceTies b c = true) :
    priceBefore a c = true := by
  cases a <;> cases b <;> cases c <;> simp_all [priceTies, priceBefore]

theorem price_total (a b : Option ℚ) :
    priceBefore a b = true ∨ priceTies a b = true ∨ priceBefore b a = true := by
  cases a with
  | none => cases b <;> simp [priceBefore, priceTies]
  | some x =>
    cases b with
    | none => simp [priceBefore]
    | some y =>
      rcases lt_trichotomy x y with h | h | h
      · exact Or.inr (Or.inr (by simp [priceBefore, h]))
      · exact Or.inr (Or.inl (by simp [priceTies, h]))
      · exact Or.inl (by simp [priceBefore, h])

theorem rowLe_trans {a b c : Row} (h1 : rowLe a b = true)
    (h2 : rowLe b c = true) : rowLe a c = true := by
  simp only [rowLe, Bool.or_eq_true, Bool.and_eq_true,
    decide_eq_true_eq] at h1 h2 ⊢
  rcases h1 with h1 | ⟨h1t, h1b⟩ <;> rcases h2 with h2 | ⟨h2t, h2b⟩
  · exact Or.inl (priceBefore_trans h1 h2)
  · exact Or.inl (priceBefore_ties_right h1 h2t)
  · exact Or.inl (priceBefore_ties_left h1t h2)
  · exact Or.inr ⟨priceTies_trans h1t h2t, le_trans h1b h2b⟩

theorem rowLe_total (a b : Row) : rowLe a b = true ∨ rowLe b a = true := by
  simp only [rowLe, Bool.or_eq_true, Bool.and_eq_true, decide_eq_true_eq]
  rcases price_total a.Price b.Price with h | h | h
  · exact Or.inl (Or.inl h)
  · rcases le_total a.Brand b.Brand with hb | hb
    · exact Or.inl (Or.inr ⟨h, hb⟩)
    · exact Or.inr (Or.inr ⟨priceTies_symm h, hb⟩)
  · exact Or.inr (Or.inl h)

theorem sortInsert_perm (a : Row) (l : List Row) :
    List.Perm (sortInsert a l) (a :: l) := by
  induction l with
  | nil => rfl
  | cons b t ih =>
    by_cases h : rowLe a b
    · simp [sortInsert, h]
    · rw [sortInsert, if_neg h]
      exact ((ih.cons b).trans (List.Perm.swap a b t))

theorem sort_values_perm (l : List Row) : List.Perm (sort_values l) l := by
  induction l with
  | nil => rfl
  | cons a t ih =>
    exact (sortInsert_perm a (sort_values t)).trans (ih.cons a)

theorem sortInsert_sorted (a : Row) (l : List Row)
    (h : List.Pairwise (fun x y => rowLe x y = true) l) :
    List.Pairwise (fun x y => rowLe x y = true) (sortInsert a l) := by
  induction l with
  | nil => simp [sortInsert]
  | cons b t ih =>
    rw [List.pairwise_cons] at h
    by_cases hab : rowLe a b
    · rw [sortInsert, if_pos hab]
      refine List.pairwise_cons.2 ⟨?_, List.pairwise_cons.2 h⟩
      intro y hy
      rcases List.mem_cons.1 hy with rfl | hy'
      · exact hab
      · exact rowLe_trans hab (h.1 y hy')
    · rw [sortInsert, if_neg hab]
      refine List.pairwise_cons.2 ⟨?_, ih h.2⟩
      intro y hy
      have hy2 : y ∈ a :: t := (sortInsert_perm a t).mem_iff.1 hy
      rcases List.mem_cons.1 hy2 with hya | hy'
      · rcases rowLe_total a b with hba | hba
        · exact absurd hba hab
        · rw [hya]; exact hba
      · exact h.1 y hy'

theorem sort_values_sorted (l : List Row) :
    List.Pairwise (fun x y => rowLe x y = true) (sort_values l) := by
  induction l with
  | nil => simp [sort_values]
  | cons a t ih => exact sortInsert_sorted a (sort_values t) ih

/-- Inserting below any already-present equal-key element never happens:
the filtered view of an insertion keeps the new element in front, which is
exactly stability for insertion sort. -/
theorem sortInsert_filter (p : Row → Bool)
    (hp : ∀ x y, p x = true → p y = true → rowLe x y = true) (a : Row)
    (l : List Row) :
    (sortInsert a l).filter p =
      if p a then a :: l.filter p else l.filter p := by
  induction l with
  | nil => by_cases h : p a <;> simp [sortInsert, List.filter, h]
  | cons b t ih =>
    by_cases hab : rowLe a b
    · rw [sortInsert, if_pos hab]
      by_cases h : p a <;> simp [List.filter_cons, h]
    · rw [sortInsert, if_neg hab]
      by_cases hpa : p a <;> by_cases hpb : p b
      · exact absurd (hp a b hpa hpb) hab
      · simp [List.filter_cons, hpa, hpb, ih]
      · simp [List.filter_cons, hpa, hpb, ih]
      · simp [List.filter_cons, hpa, hpb, ih]

theorem sort_values_filter (p : Row → Bool)
    (hp : ∀ x y, p x = true → p y = true → rowLe x y = true) (l : List Row) :
    (sort_values l).filter p = l.filter p := by
  induction l with
  | nil => rfl
  | cons a t ih =>
    rw [sort_values, sortInsert_filter p hp, ih]
    by_cases h : p a <;> simp [List.filter_cons, h]

theorem rowTies_rowLe {x y : Row} (h1 : rowTies x y = true) :
    rowLe x y = true := by
  simp only [rowTies, Bool.and_eq_true, beq_iff_eq] at h1
  simp only [rowLe, Bool.or_eq_true, Bool.and_eq_true, decide_eq_true_eq]
  exact Or.inr ⟨h1.1, le_of_eq h1.2⟩

theorem rowTies_shared {x y r : Row} (h1 : rowTies x r = true)
    (h2 : rowTies y r = true) : rowTies x y = true := by
  simp only [rowTies, Bool.and_eq_true, beq_iff_eq] at h1 h2 ⊢
  exact ⟨priceTies_trans h1.1 (priceTies_symm h2.1), h1.2.trans h2.2.symm⟩

/-- `find?` by key is invariant under permutation of a key-unique staged
batch. -/
theorem find?_key_perm {l1 l2 : List Row} (h : List.Perm l1 l2)
    (hu : l1.Pairwise (fun a b => a.DRIVER_ID ≠ b.DRIVER_ID)) (k : String) :
    l1.find? (fun x => x.DRIVER_ID == k) =
      l2.find? (fun x => x.DRIVER_ID == k) := by
  cases h1 : l1.find? (fun x => x.DRIVER_ID == k) with
  | none =>
    rw [List.find?_eq_none] at h1
    symm
    rw [List.find?_eq_none]
    intro x hx
    exact h1 x (h.mem_iff.2 hx)
  | some x =>
    have hpx := List.find?_some h1
    have hmx := List.mem_of_find?_eq_some h1
    cases h2 : l2.find? (fun x => x.DRIVER_ID == k) with
    | none =>
      rw [List.find?_eq_none] at h2
      exact absurd hpx (h2 x (h.mem_iff.1 hmx))
    | some y =>
      have hpy := List.find?_some h2
      have hmy := h.mem_iff.2 (List.mem_of_find?_eq_some h2)
      rw [key_unique_eq hu x hmx y hmy
        ((beq_iff_eq.1 hpx).trans (beq_iff_eq.1 hpy).symm)]

/-- The merge result is invariant (up to row order) under permutation of a
key-unique staged batch. -/
theorem merge_perm {store : List StoredRow} {l1 l2 : List Row} {now : Nat}
    (h : List.Perm l1 l2)
    (hu : l1.Pairwise (fun a b => a.DRIVER_ID ≠ b.DRIVER_ID)) :
    List.Perm (mergeGolfDrivers store l1 now) (mergeGolfDrivers store l2 now) := by
  rw [mergeGolfDrivers, mergeGolfDrivers]
  have hmap : store.map (mergeRow l1 now) = store.map (mergeRow l2 now) := by
    apply List.map_congr_left
    intro t _
    rw [mergeRow, mergeRow, find?_key_perm h hu]
  rw [hmap]
  exact List.Perm.append_left _ ((h.filter _).map _)

/-- C9: `sort_values` permutes the tagged rows into price-descending,
brand-ascending order (absent prices last); the sort is stable (tied rows
keep their relative order), changes no record and no DRIVER_ID, and leaves
the reconciliation result — merged store up to row order, and both
reported counts — unchanged. -/
theorem sort_values_presentation_only :
    ∀ l : List Row,
      List.Perm (sort_values l) l
      ∧ List.Pairwise (fun a b => rowLe a b = true) (sort_values l)
      ∧ (∀ r : Row, (sort_values l).filter (fun x => rowTies x r) =
          l.filter (fun x => rowTies x r))
      ∧ List.Perm ((sort_values l).map Row.DRIVER_ID) (l.map Row.DRIVER_ID)
      ∧ (∀ (store : List StoredRow) (now : Nat),
          l.Pairwise (fun a b => a.DRIVER_ID ≠ b.DRIVER_ID) →
          List.Perm (mergeGolfDrivers store (sort_values l) now)
            (mergeGolfDrivers store l now)
          ∧ (upload_to_snowflake store (sort_values l) now).2 =
            (upload_to_snowflake store l now).2) := by
  intro l
  refine ⟨sort_values_perm l, sort_values_sorted l, ?_, (sort_values_perm l).map _, ?_⟩
  · intro r
    exact sort_values_filter _
      (fun x y hx hy => rowTies_rowLe (rowTies_shared hx hy)) l
  · intro store now hu
    have hus : (sort_values l).Pairwise
        (fun a b => a.DRIVER_ID ≠ b.DRIVER_ID) :=
      ((sort_values_perm l).pairwise_iff
        (fun h => h ∘ Eq.symm)).2 hu
    refine ⟨merge_perm (sort_values_perm l) hus, ?_⟩
    rw [uploadCountsZeroAux store (sort_values l) now hus,
      uploadCountsZeroAux store l now hu]

/-- C9 witness: a concrete two-row batch is permuted, sorted, stable, and
reconciles identically. -/
theorem sort_values_presentation_only_witness :
    List.Perm (sort_values [mkRow "B" "k1" (some 1), mkRow "A" "k2" (some 2)])
      [mkRow "B" "k1" (some 1), mkRow "A" "k2" (some 2)] ∧
    (upload_to_snowflake []
        (sort_values [mkRow "B" "k1" (some 1), mkRow "A" "k2" (some 2)]) 3).2 =
      (upload_to_snowflake [] [mkRow "B" "k1" (some 1), mkRow "A" "k2" (some 2)] 3).2 := by
  have h := sort_values_presentation_only
    [mkRow "B" "k1" (some 1), mkRow "A" "k2" (some 2)]
  refine ⟨h.1, (h.2.2.2.2 [] 3 ?_).2⟩
  refine List.pairwise_cons.2 ⟨?_, List.pairwise_singleton _ _⟩
  intro b hb
  rw [List.mem_singleton.1 hb]
  simp [mkRow]

/-! ### C10: empty runs produce a column-less frame -/

/-- C10: when the page loop collects zero records, `scrape_products`
returns the empty frame `pd.DataFrame([])` untouched — no columns at all,
in particular neither SOURCE_URL nor DRIVER_ID (tagging and sorting are
skipped) — whereas any non-empty run carries the full column set. -/
theorem empty_scrape_no_identity_columns :
    ∀ (pages : Nat → FetchOutcome) (url : String) (max_pages : Nat),
      (scrapeLoop pages max_pages = [] →
        scrape_products pages url max_pages = ([], []) ∧
        "SOURCE_URL" ∉ (scrape_products pages url max_pages).1 ∧
        "DRIVER_ID" ∉ (scrape_products pages url max_pages).1)
      ∧ (scrapeLoop pages max_pages ≠ [] →
          (scrape_products pages url max_pages).1 = scrapedColumns ∧
          "SOURCE_URL" ∈ (scrape_products pages url max_pages).1 ∧
          "DRIVER_ID" ∈ (scrape_products pages url max_pages).1) := by
  intro pages url m
  constructor
  · intro h
    rw [scrape_products, h]
    exact ⟨rfl, by simp, by simp⟩
  · intro h
    have he : (scrapeLoop pages m).isEmpty = false := by
      simpa [List.isEmpty_iff] using h
    rw [scrape_products, he]
    exact ⟨rfl, by simp [scrapedColumns], by simp [scrapedColumns]⟩

/-- C10 witness: a run whose first page has no listing elements yields the
column-less empty frame. -/
theorem empty_scrape_no_identity_columns_witness :
    scrape_products (fun _ => .ok [] true) "u" 5 = ([], []) ∧
    "DRIVER_ID" ∉ (scrape_products (fun _ => .ok [] true) "u" 5).1 := by
  have h := (empty_scrape_no_identity_columns (fun _ => .ok [] true) "u" 5).1
    (by decide)
  exact ⟨h.1, h.2.2⟩
